import Mathlib

/-!
Verification development for the Soulmob decision-and-orchestration core.

The definitions below are a shallow embedding of the TypeScript sources:

* `server/quantum/quaternaryLogic.ts` (the collapse engine, the friction
  score calculator) and
* `server/features/environmentalOrchestrator.ts` (device registry, policy
  store, policy evaluator/executor, orchestration log).

JS numbers are modelled as rationals (`ℚ`).  The one place a non-finite JS
number can arise in the embedded code — the `0/0` in `decide`'s confidence
when no trit was drawn — is modelled by `Option ℚ` with `none` standing for
NaN (see `jsDiv`).  JS objects used as open string-keyed bags are modelled
as association lists with JS object-literal update semantics (`bagInsert`,
`bagMerge`).  `undefined` is modelled by `Option`, and the JS comparison
`undefined < t` (which is false) by `jsLtOpt`.
-/

namespace Soulmob

/-- A JS value stored in an open `Record<string, any>` bag: the embedded
code only ever stores numbers, strings and booleans there. -/
inductive JVal where
  | num (q : ℚ)
  | str (s : String)
  | boolean (b : Bool)
deriving DecidableEq

/-- Whether a string-keyed association list has the key.  Both a JS object
(`key in obj`) and a JS `Map` (`map.has(key)`) reduce to this on the
association-list model. -/
def assocAny (m : List (String × α)) (k : String) : Bool :=
  m.any (fun p => p.1 == k)

/-- Keyed read: the value at the first occurrence of the key, `none` for a
missing key.  Models both a JS property read (`undefined` for a missing
key) and `Map.get`. -/
def assocGet (m : List (String × α)) (k : String) : Option α :=
  (m.find? (fun p => p.1 == k)).map (fun p => p.2)

/-- Keyed write: an existing key keeps its position and gets the new
value, a new key is appended.  Models both a JS property write (object
literal / spread, one key at a time) and `Map.set`. -/
def assocSet (m : List (String × α)) (k : String) (v : α) : List (String × α) :=
  if assocAny m k then m.map (fun p => if p.1 == k then (p.1, v) else p)
  else m ++ [(k, v)]

/-- An open string-keyed JS object (`Record<string, any>`), as an
association list in key insertion order. -/
abbrev Bag := List (String × JVal)

/-- Whether the bag has the key (JS `key in obj`). -/
def bagHas (b : Bag) (k : String) : Bool :=
  assocAny b k

/-- JS property read: the value at the key, `none` for `undefined`. -/
def bagLookup (b : Bag) (k : String) : Option JVal :=
  assocGet b k

/-- JS property write: an existing key keeps its position and gets the new
value, a new key is appended — the semantics of building an object literal
or spreading one key at a time. -/
def bagInsert (b : Bag) (k : String) (v : JVal) : Bag :=
  assocSet b k v

/-- JS object spread `\x7b...a, ...b\x7d`: every key of `b` written over `a`
in order, later keys of `b` winning. -/
def bagMerge (a b : Bag) : Bag :=
  b.foldl (fun acc p => bagInsert acc p.1 p.2) a

/-- JS `x || 0` applied to a possibly-`undefined` number: `undefined`
becomes `0`, a number stays itself (`0 || 0` is `0`). -/
def jsOr0 (v : Option ℚ) : ℚ :=
  v.getD 0

/-- Lookup in a `Record<string, number>` modelled as an association list. -/
def qLookup (l : List (String × ℚ)) (k : String) : Option ℚ :=
  (l.find? (fun p => p.1 == k)).map (fun p => p.2)

/-- The JS comparison `v < t` where `v` may be `undefined`:
`undefined < t` is `false` (NaN comparison), otherwise the numeric order. -/
def jsLtOpt (v : Option ℚ) (t : ℚ) : Bool :=
  match v with
  | some x => decide (x < t)
  | none => false

/-- JS division as used for `decide`'s confidence.  A zero denominator
produces a non-finite JS number — here necessarily `0/0 = NaN`, since the
numerator (a tally maximum) is `0` whenever the denominator (the number of
trits drawn) is — modelled as `none`. -/
def jsDiv (a b : ℚ) : Option ℚ :=
  if b = 0 then none else some (a / b)

/-- JS truthiness of a number (`if (x)`): true iff nonzero. -/
def jsTruthy (q : ℚ) : Bool :=
  decide (q ≠ 0)

/-- JS `array.slice(-limit)`: the last `limit` elements.  For `limit = 0`
JS computes `slice(-0) = slice(0)`, the whole array. -/
def jsSliceNeg (l : List α) (limit : ℕ) : List α :=
  if limit = 0 then l else l.drop (l.length - limit)

/-! ## quaternaryLogic.ts — the collapse engine -/

/-- `enum TriState` of `quaternaryLogic.ts`, in declaration order. -/
inductive TriState where
  | TRUE
  | FALSE
  | SUPERPOSITION
deriving DecidableEq

/-- `enum QuatState` of `quaternaryLogic.ts`. -/
inductive QuatState where
  | ENTANGLEMENT
deriving DecidableEq

/-- `interface DecisionContext`.  Optional fields are `Option`s. -/
structure DecisionContext where
  userId : String
  features : List ℚ
  emotionVector : Option (List (String × ℚ))
  frictionScore : Option ℚ
  multiDeviceContext : Option Bool
  deviceIds : Option (List String)
deriving DecidableEq

/-- The four actions of `DecisionResult['action']`. -/
inductive Action where
  | PROCEED_LOCAL
  | SKIP_LOCAL
  | DEFER_UNTIL_COLLAPSE
  | ORCHESTRATE_SYNC
deriving DecidableEq

/-- `interface DecisionResult`.  `confidence` is `Option ℚ` because the JS
number it embeds can be NaN (see `jsDiv`). -/
structure DecisionResult where
  action : Action
  confidence : Option ℚ
  triState : TriState
  quatState : Option QuatState
  reasoning : String
deriving DecidableEq

/-- `collapseQubit(observation)` of `quaternaryLogic.ts`. -/
def collapseQubit (observation : ℚ) : TriState :=
  if observation < 0.33 then TriState.FALSE
  else if observation < 0.66 then TriState.TRUE
  else TriState.SUPERPOSITION

/-- `checkEntanglement(context)`: `multiDeviceContext === true`, the device
id list present, and more than one device id. -/
def checkEntanglement (context : DecisionContext) : Bool :=
  match context.multiDeviceContext, context.deviceIds with
  | some true, some ids => 1 < ids.length
  | _, _ => false

/-- One tally of `triCounts`: how many of the drawn trits equal `t`. -/
def tritCount (trits : List TriState) (t : TriState) : ℕ :=
  (trits.filter (fun x => x == t)).length

/-- `Object.entries(triCounts)` — insertion order TRUE, FALSE,
SUPERPOSITION, as the object literal declares them. -/
def triEntries (cT cF cS : ℕ) : List (TriState × ℕ) :=
  [(TriState.TRUE, cT), (TriState.FALSE, cF), (TriState.SUPERPOSITION, cS)]

/-- `Object.entries(triCounts).sort(([, a], [, b]) => b - a)[0][0]`: the
entries stably sorted by descending count (JS `Array.prototype.sort` is
stable, so on equal counts the first-declared entry stays first), then the
first entry's key. -/
def majorityTriState (cT cF cS : ℕ) : TriState :=
  (((triEntries cT cF cS).insertionSort (fun p q => p.2 ≥ q.2)).headD
    (TriState.TRUE, 0)).1

/-- The trits `decide` draws: one observation per entry of `features`, each
collapsed by `collapseQubit`.  The engine's `rng` is modelled by the
observation stream `obs : ℕ → ℚ` (draw number ↦ observation); the feature
values themselves are not read, only their count. -/
def drawnTrits (obs : ℕ → ℚ) (context : DecisionContext) : List TriState :=
  (List.range context.features.length).map (fun i => collapseQubit (obs i))

/-- `QuantumDecisionEngine.decide(context)`, with the engine's internal
`rng` made explicit as the observation stream `obs`. -/
def QuantumDecisionEngine.decide (obs : ℕ → ℚ) (context : DecisionContext) :
    DecisionResult :=
  let trits := drawnTrits obs context
  let cT := tritCount trits TriState.TRUE
  let cF := tritCount trits TriState.FALSE
  let cS := tritCount trits TriState.SUPERPOSITION
  let majority := majorityTriState cT cF cS
  let hasEntanglement := checkEntanglement context
  let ar : Action × String :=
    if hasEntanglement && (majority == TriState.TRUE) then
      (Action.ORCHESTRATE_SYNC, "Multi-device synchronization required for this action")
    else if majority == TriState.TRUE then
      (Action.PROCEED_LOCAL, "Majority vote indicates proceed")
    else if majority == TriState.FALSE then
      (Action.SKIP_LOCAL, "Majority vote indicates skip")
    else
      (Action.DEFER_UNTIL_COLLAPSE, "Superposition state detected; deferring until more data available")
  { action := ar.1
    confidence := jsDiv ((max cT (max cF cS) : ℕ) : ℚ) ((trits.length : ℕ) : ℚ)
    triState := majority
    quatState := if hasEntanglement then some QuatState.ENTANGLEMENT else none
    reasoning := ar.2 }

/-- One step of `seededRandom`'s linear congruential generator:
`seed = (seed * 9301 + 49297) % 233280`. -/
def seededStep (seed : ℕ) : ℕ :=
  (seed * 9301 + 49297) % 233280

/-! ## quaternaryLogic.ts — the friction score calculator -/

/-- The argument of `FrictionScoreCalculator.calculate`. -/
structure FrictionMetrics where
  batteryEntropy : ℚ
  freeRam : ℚ
  behavioralAuthErrorRate : ℚ
  typingErrorRate : ℚ
  emotionVector : Option (List (String × ℚ))
deriving DecidableEq

/-- `metrics.emotionVector.rushed || 0`, the rushed intensity the
calculator reads (0 when the mapping or the key is absent). -/
def emotionRushed (metrics : FrictionMetrics) : ℚ :=
  match metrics.emotionVector with
  | some ev => jsOr0 (qLookup ev "rushed")
  | none => 0

/-- `metrics.emotionVector.tired || 0`, the tired intensity the calculator
reads (0 when the mapping or the key is absent). -/
def emotionTired (metrics : FrictionMetrics) : ℚ :=
  match metrics.emotionVector with
  | some ev => jsOr0 (qLookup ev "tired")
  | none => 0

/-- The `emotionFriction` local of `calculate`: 0 with no emotion mapping,
otherwise `rushed * 0.5 + tired * 0.3` with missing keys read as 0. -/
def emotionFrictionOf (metrics : FrictionMetrics) : ℚ :=
  match metrics.emotionVector with
  | some ev => jsOr0 (qLookup ev "rushed") * 0.5 + jsOr0 (qLookup ev "tired") * 0.3
  | none => 0

/-- `FrictionScoreCalculator.calculate(metrics)`. -/
def FrictionScoreCalculator.calculate (metrics : FrictionMetrics) : ℚ :=
  let batteryFriction := metrics.batteryEntropy
  let ramFriction := max 0 (1 - metrics.freeRam / (4 * 1024 * 1024 * 1024))
  let authFriction := metrics.behavioralAuthErrorRate
  let typingFriction := metrics.typingErrorRate
  let emotionFriction := emotionFrictionOf metrics
  let frictionScore :=
    batteryFriction * 0.2 + ramFriction * 0.2 + authFriction * 0.2 +
      typingFriction * 0.2 + emotionFriction * 0.2
  min 1 (max 0 frictionScore)

/-! ## environmentalOrchestrator.ts — data model -/

/-- `interface SmartHomeDevice`.  The `deviceType` union is kept as its
string tag; the open `state` bag is a `Bag`. -/
structure SmartHomeDevice where
  id : String
  userId : String
  deviceId : String
  deviceName : String
  deviceType : String
  state : Bag
  lastSyncedAt : Option ℚ
deriving DecidableEq

/-- The `condition` field of `interface EnvironmentalPolicy`:
optional emotion thresholds, optional friction `(min, max)` window (each
bound itself optional), optional `(start, end)` time-of-day window. -/
structure PolicyCondition where
  emotionVector : Option (List (String × ℚ))
  frictionScore : Option (Option ℚ × Option ℚ)
  timeOfDay : Option (String × String)
deriving DecidableEq

/-- One entry of a policy's `action.devices` list. -/
structure DeviceAction where
  deviceId : String
  command : String
  parameters : Bag
deriving DecidableEq

/-- `interface EnvironmentalPolicy`; `action` is the `action.devices`
list. -/
structure EnvironmentalPolicy where
  id : String
  userId : String
  policyName : String
  condition : PolicyCondition
  action : List DeviceAction
  isActive : Bool
  createdAt : ℚ
deriving DecidableEq

/-- `interface EmotionVector`: the seven fixed emotion intensities of an
input emotion vector. -/
structure EmotionVector where
  bored : ℚ
  rushed : ℚ
  playful : ℚ
  lonely : ℚ
  focused : ℚ
  tired : ℚ
  hype : ℚ
deriving DecidableEq

/-- One per-device outcome inside an `OrchestrationResult`. -/
structure ActionOutcome where
  deviceId : String
  command : String
  success : Bool
  error : Option String
deriving DecidableEq

/-- `interface OrchestrationResult`. -/
structure OrchestrationResult where
  policyId : String
  policyName : String
  triggeredAt : ℚ
  actions : List ActionOutcome
deriving DecidableEq

/-- JS `Map.get`: the value at the first (only) occurrence of the key. -/
def mapGet (m : List (String × α)) (k : String) : Option α :=
  assocGet m k

/-- JS `Map.set`: replace the value at an existing key, else append the
new key. -/
def mapSet (m : List (String × α)) (k : String) (v : α) : List (String × α) :=
  assocSet m k v

/-- The private state of `EnvironmentalOrchestratorEngine`: the per-user
device map, the per-user policy map, and the single append-only
orchestration history array. -/
structure EngineState where
  devices : List (String × List SmartHomeDevice)
  policies : List (String × List EnvironmentalPolicy)
  orchestrationHistory : List OrchestrationResult
deriving DecidableEq

/-- A fresh `EnvironmentalOrchestratorEngine`: empty maps, empty history. -/
def initState : EngineState :=
  { devices := [], policies := [], orchestrationHistory := [] }

/-- Replace the first element whose `deviceId` is `targetId` with `d`
(the in-place mutation of the array element JS `findIndex`/`find`
selected). -/
def updateFirst (devs : List SmartHomeDevice) (targetId : String)
    (d : SmartHomeDevice) : List SmartHomeDevice :=
  match devs with
  | [] => []
  | x :: rest =>
    if x.deviceId == targetId then d :: rest
    else x :: updateFirst rest targetId d

/-- `registerDevice(device)`: ensure the user's list exists, then replace
the first record with the same `deviceId` (JS `findIndex` ≥ 0, assignment
at that index) or push the new record. -/
def registerDevice (s : EngineState) (device : SmartHomeDevice) : EngineState :=
  let userDevices := (mapGet s.devices device.userId).getD []
  let newList :=
    if userDevices.any (fun d => d.deviceId == device.deviceId) then
      updateFirst userDevices device.deviceId device
    else userDevices ++ [device]
  { s with devices := mapSet s.devices device.userId newList }

/-- `createPolicy(policy)`: append to the user's policy list. -/
def createPolicy (s : EngineState) (policy : EnvironmentalPolicy) : EngineState :=
  let userPolicies := (mapGet s.policies policy.userId).getD []
  { s with policies := mapSet s.policies policy.userId (userPolicies ++ [policy]) }

/-- The JS property read `(emotionVector as any)[emotion]` on the typed
seven-field input vector: a name outside the seven fields is `undefined`. -/
def lookupEmotion (ev : EmotionVector) (name : String) : Option ℚ :=
  if name == "bored" then some ev.bored
  else if name == "rushed" then some ev.rushed
  else if name == "playful" then some ev.playful
  else if name == "lonely" then some ev.lonely
  else if name == "focused" then some ev.focused
  else if name == "tired" then some ev.tired
  else if name == "hype" then some ev.hype
  else none

/-- `evaluateCondition(condition, emotionVector, frictionScore)`.  The
time-of-day clause reads the wall clock; its `HH:MM` string is passed in
as `currentTime`.  Each clause returns `false` early on a failed check —
pure, so a conjunction. -/
def evaluateCondition (condition : PolicyCondition) (emotionVector : EmotionVector)
    (frictionScore : ℚ) (currentTime : String) : Bool :=
  (match condition.emotionVector with
   | some pairs => pairs.all (fun p => !(jsLtOpt (lookupEmotion emotionVector p.1) p.2))
   | none => true) &&
  (match condition.frictionScore with
   | some mm =>
     (match mm.1 with
      | some mn => !(decide (frictionScore < mn))
      | none => true) &&
     (match mm.2 with
      | some mx => !(decide (mx < frictionScore))
      | none => true)
   | none => true) &&
  (match condition.timeOfDay with
   | some se => !(decide (currentTime < se.1) || decide (se.2 < currentTime))
   | none => true)

/-- `sendDeviceCommand(device, command, parameters)`: spread the
parameters over the state bag, stamp `lastCommand` and `lastCommandTime`,
stamp `lastSyncedAt`, and return `true`. -/
def sendDeviceCommand (device : SmartHomeDevice) (command : String)
    (parameters : Bag) (now : ℚ) : SmartHomeDevice × Bool :=
  ({ device with
      state :=
        bagInsert
          (bagInsert (bagMerge device.state parameters) "lastCommand" (JVal.str command))
          "lastCommandTime" (JVal.num now)
      lastSyncedAt := some now }, true)

/-- The per-action loop of `executePolicy`, over the user's device list:
look each action's device up by `deviceId`; if found run
`sendDeviceCommand` (recording its failure branch), else record
`success = false`, error `"Device not found"`, and continue. -/
def execActions (userDevices : List SmartHomeDevice) (specs : List DeviceAction)
    (now : ℚ) : List ActionOutcome × List SmartHomeDevice :=
  match specs with
  | [] => ([], userDevices)
  | a :: rest =>
    match userDevices.find? (fun d => d.deviceId == a.deviceId) with
    | some device =>
      let sent := sendDeviceCommand device a.command a.parameters now
      let outcome : ActionOutcome :=
        { deviceId := a.deviceId
          command := a.command
          success := sent.2
          error := if sent.2 then none else some "Device command failed" }
      let next := execActions (updateFirst userDevices a.deviceId sent.1) rest now
      (outcome :: next.1, next.2)
    | none =>
      let outcome : ActionOutcome :=
        { deviceId := a.deviceId
          command := a.command
          success := false
          error := some "Device not found" }
      let next := execActions userDevices rest now
      (outcome :: next.1, next.2)

/-- `executePolicy(userId, policy)`: run the action list against the
user's devices and wrap the outcomes.  The device list is mutated in
place in JS, so the map is written back only when the user had an entry. -/
def executePolicy (s : EngineState) (userId : String)
    (policy : EnvironmentalPolicy) (now : ℚ) : OrchestrationResult × EngineState :=
  let userDevices := (mapGet s.devices userId).getD []
  let run := execActions userDevices policy.action now
  ({ policyId := policy.id
     policyName := policy.policyName
     triggeredAt := now
     actions := run.1 },
   { s with
      devices :=
        if (mapGet s.devices userId).isSome then mapSet s.devices userId run.2
        else s.devices })

/-- The policy loop of `orchestrate`: skip inactive policies, evaluate
each condition, execute matches, collect each result and append it to the
history. -/
def orchestrateGo (userId : String) (ev : EmotionVector) (frictionScore : ℚ)
    (now : ℚ) (currentTime : String) :
    List EnvironmentalPolicy → EngineState → List OrchestrationResult × EngineState
  | [], s => ([], s)
  | p :: rest, s =>
    if p.isActive && evaluateCondition p.condition ev frictionScore currentTime then
      let run := executePolicy s userId p now
      let s2 :=
        { run.2 with orchestrationHistory := run.2.orchestrationHistory ++ [run.1] }
      let next := orchestrateGo userId ev frictionScore now currentTime rest s2
      (run.1 :: next.1, next.2)
    else orchestrateGo userId ev frictionScore now currentTime rest s

/-- `orchestrate(userId, emotionVector, frictionScore)`: loop over the
user's policies.  `now` is `Date.now()`, `currentTime` the `HH:MM` wall
clock string. -/
def orchestrate (s : EngineState) (userId : String) (ev : EmotionVector)
    (frictionScore : ℚ) (now : ℚ) (currentTime : String) :
    List OrchestrationResult × EngineState :=
  orchestrateGo userId ev frictionScore now currentTime
    ((mapGet s.policies userId).getD []) s

/-- `getHistory(userId, limit = 50)`: filter the single history array by
truthy `triggeredAt` and take its `slice(-limit)`.  The `userId` argument
is not read by the source. -/
def getHistory (s : EngineState) (_userId : String) (limit : ℕ) :
    List OrchestrationResult :=
  jsSliceNeg (s.orchestrationHistory.filter (fun r => jsTruthy r.triggeredAt)) limit

/-- `getDevices(userId)`. -/
def getDevices (s : EngineState) (userId : String) : List SmartHomeDevice :=
  (mapGet s.devices userId).getD []

/-- `getPolicies(userId)`. -/
def getPolicies (s : EngineState) (userId : String) : List EnvironmentalPolicy :=
  (mapGet s.policies userId).getD []

/-! ## Operation sequences over the engine -/

/-- One public state-changing call on `EnvironmentalOrchestratorEngine`. -/
inductive EngineOp where
  | register (d : SmartHomeDevice)
  | create (p : EnvironmentalPolicy)
  | orch (userId : String) (ev : EmotionVector) (frictionScore now : ℚ)
      (currentTime : String)

/-- Apply one call to the engine state. -/
def applyOp (s : EngineState) : EngineOp → EngineState
  | EngineOp.register d => registerDevice s d
  | EngineOp.create p => createPolicy s p
  | EngineOp.orch u ev fs now ct => (orchestrate s u ev fs now ct).2

/-- Run a call sequence from a fresh engine. -/
def runOps (ops : List EngineOp) : EngineState :=
  ops.foldl applyOp initState

/-- The registry uniqueness invariant: the device map's user keys are
distinct, and within each user's list the `deviceId`s are distinct — at
most one record per `(userId, deviceId)` pair. -/
def DevicesWF (s : EngineState) : Prop :=
  (s.devices.map (fun e => e.1)).Nodup ∧
    ∀ e ∈ s.devices, (e.2.map (fun d => d.deviceId)).Nodup

/-- The selector matching `triCounts`: which tally belongs to which trit. -/
def countSel (cT cF cS : ℕ) : TriState → ℕ
  | TriState.TRUE => cT
  | TriState.FALSE => cF
  | TriState.SUPERPOSITION => cS

/-! ## Concrete fixtures for the closed theorems -/

/-- An input emotion vector with every intensity 0. -/
def zeroEmotion : EmotionVector :=
  { bored := 0, rushed := 0, playful := 0, lonely := 0, focused := 0
    tired := 0, hype := 0 }

/-- A policy condition whose only clause names the emotion `"angry"` —
a name outside the seven fields of the typed input vector — with a
positive threshold. -/
def angryCondition : PolicyCondition :=
  { emotionVector := some [("angry", 0.5)], frictionScore := none, timeOfDay := none }

/-- A decision context with an empty feature vector (no trit is drawn). -/
def emptyFeaturesCtx : DecisionContext :=
  { userId := "user-1", features := [], emotionVector := none
    frictionScore := none, multiDeviceContext := none, deviceIds := none }

/-- A multi-device decision context: entanglement holds
(`multiDeviceContext` true, two device ids) and three features are
drawn. -/
def entangledCtx : DecisionContext :=
  { userId := "user-1", features := [1, 2, 3], emotionVector := none
    frictionScore := none, multiDeviceContext := some true
    deviceIds := some ["phone", "tablet"] }

/-- An always-active policy of user `"user-b"` whose condition has no
clause (it matches trivially) and whose action list is empty. -/
def userBPolicy : EnvironmentalPolicy :=
  { id := "pol-b", userId := "user-b", policyName := "evening"
    condition := { emotionVector := none, frictionScore := none, timeOfDay := none }
    action := [], isActive := true, createdAt := 0 }

/-- The all-zero, 4 GiB-free metrics with no emotion vector. -/
def perfectMetrics : FrictionMetrics :=
  { batteryEntropy := 0, freeRam := 4 * 1024 * 1024 * 1024
    behavioralAuthErrorRate := 0, typingErrorRate := 0, emotionVector := none }

/-! ## Association-list lemmas -/

theorem assocGet_replaceMap (m : List (String × α)) (k k' : String) (v : α) :
    assocGet (m.map fun p => if p.1 == k then (p.1, v) else p) k' =
      (m.find? (fun p => p.1 == k')).map (fun p => if p.1 == k then v else p.2) := by
  unfold assocGet
  rw [List.find?_map]
  have hpred :
      ((fun p : String × α => p.1 == k') ∘ fun p => if p.1 == k then (p.1, v) else p) =
        fun p : String × α => p.1 == k' := by
    funext p
    by_cases hp : p.1 = k <;> simp [hp]
  rw [hpred, Option.map_map]
  cases hf : m.find? (fun p : String × α => p.1 == k') with
  | none => rfl
  | some x =>
    by_cases hx : x.1 = k <;> simp [Function.comp, hx]

theorem assocGet_set (m : List (String × α)) (k k' : String) (v : α) :
    assocGet (assocSet m k v) k' = if k' = k then some v else assocGet m k' := by
  unfold assocSet
  by_cases hhas : assocAny m k
  · rw [if_pos hhas, assocGet_replaceMap]
    by_cases hk : k' = k
    · rcases List.any_eq_true.mp hhas with ⟨x, hx, hpx⟩
      have hpx' : (x.1 == k') = true := by rw [hk]; exact hpx
      have hsome : (m.find? (fun p : String × α => p.1 == k')).isSome :=
        List.find?_isSome.mpr ⟨x, hx, hpx'⟩
      rcases Option.isSome_iff_exists.mp hsome with ⟨y, hy⟩
      have hyk : y.1 = k' := by simpa using List.find?_some hy
      rw [hy, if_pos hk]
      simp [hyk, hk]
    · rw [if_neg hk]
      unfold assocGet
      cases hf : m.find? (fun p : String × α => p.1 == k') with
      | none => rfl
      | some x =>
        have hx1 : x.1 = k' := by simpa using List.find?_some hf
        have hx2 : ¬ x.1 = k := by rw [hx1]; exact hk
        simp [hx2]
  · rw [if_neg hhas]
    unfold assocGet
    rw [List.find?_append]
    by_cases hk : k' = k
    · subst hk
      have hnone : m.find? (fun p : String × α => p.1 == k') = none := by
        rw [List.find?_eq_none]
        intro x hx hpx
        exact hhas (List.any_eq_true.mpr ⟨x, hx, hpx⟩)
      simp [hnone]
    · have hone : List.find? (fun p : String × α => p.1 == k') [(k, v)] = none := by
        simp [Ne.symm hk]
      simp [hone, hk]

theorem assocSet_fst_of_any (m : List (String × α)) (k : String) (v : α)
    (h : assocAny m k = true) :
    (assocSet m k v).map Prod.fst = m.map Prod.fst := by
  unfold assocSet
  rw [if_pos h, List.map_map]
  refine List.map_congr_left ?_
  intro p _
  by_cases hp : p.1 = k <;> simp [hp]

theorem assocSet_fst_of_not (m : List (String × α)) (k : String) (v : α)
    (h : assocAny m k = false) :
    (assocSet m k v).map Prod.fst = m.map Prod.fst ++ [k] := by
  unfold assocSet
  rw [if_neg (by simp [h]), List.map_append]
  rfl

theorem mem_assocSet (m : List (String × α)) (k : String) (v : α) (e : String × α)
    (he : e ∈ assocSet m k v) : e ∈ m ∨ e = (k, v) := by
  unfold assocSet at he
  by_cases hhas : assocAny m k
  · rw [if_pos hhas] at he
    rcases List.mem_map.mp he with ⟨p, hp, rfl⟩
    by_cases hk : p.1 = k
    · right; simp [hk]
    · left; simpa [hk] using hp
  · rw [if_neg hhas] at he
    rcases List.mem_append.mp he with h | h
    · exact Or.inl h
    · right; simpa using h

theorem assocAny_of_get_isSome (m : List (String × α)) (k : String)
    (h : (assocGet m k).isSome = true) : assocAny m k = true := by
  unfold assocGet at h
  rw [Option.isSome_map'] at h
  rcases List.find?_isSome.mp h with ⟨x, hx, hpx⟩
  exact List.any_eq_true.mpr ⟨x, hx, hpx⟩

theorem assocGet_mem (m : List (String × α)) (k : String) (l : α)
    (h : assocGet m k = some l) : (k, l) ∈ m := by
  unfold assocGet at h
  rcases Option.map_eq_some'.mp h with ⟨x, hfx, hx2⟩
  have hx1 : x.1 = k := by simpa using List.find?_some hfx
  have hmem := List.mem_of_find?_eq_some hfx
  have hxkl : x = (k, l) := by
    cases x
    simp_all
  exact hxkl ▸ hmem

/-! ## Bag-merge lemmas -/

theorem bagLookup_insert (b : Bag) (k k' : String) (v : JVal) :
    bagLookup (bagInsert b k v) k' = if k' = k then some v else bagLookup b k' :=
  assocGet_set b k k' v

theorem bagLookup_merge_of_absent (params : Bag) (a : Bag) (k : String)
    (h : ∀ pair ∈ params, pair.1 ≠ k) :
    bagLookup (bagMerge a params) k = bagLookup a k := by
  induction params generalizing a with
  | nil => rfl
  | cons p rest ih =>
    have hstep : bagMerge a (p :: rest) = bagMerge (bagInsert a p.1 p.2) rest := rfl
    rw [hstep, ih _ (fun q hq => h q (List.mem_cons_of_mem _ hq)), bagLookup_insert,
      if_neg (Ne.symm (h p (List.mem_cons_self _ _)))]

theorem bagLookup_merge_of_mem (params : Bag) (a : Bag) (k : String) (v : JVal)
    (hnd : (params.map Prod.fst).Nodup) (hmem : (k, v) ∈ params) :
    bagLookup (bagMerge a params) k = some v := by
  induction params generalizing a with
  | nil => simp at hmem
  | cons p rest ih =>
    have hstep : bagMerge a (p :: rest) = bagMerge (bagInsert a p.1 p.2) rest := rfl
    rw [List.map_cons, List.nodup_cons] at hnd
    rcases List.mem_cons.mp hmem with heq | hrest
    · have hpk : p.1 = k := by rw [← heq]
      have hpv : p.2 = v := by rw [← heq]
      have habsent : ∀ pair ∈ rest, pair.1 ≠ k := by
        intro q hq hqk
        apply hnd.1
        rw [hpk, ← hqk]
        exact List.mem_map_of_mem Prod.fst hq
      rw [hstep, bagLookup_merge_of_absent rest _ k habsent, bagLookup_insert, hpk,
        if_pos rfl, hpv]
    · exact hstep ▸ ih (bagInsert a p.1 p.2) hnd.2 hrest

/-! ## updateFirst lemmas -/

theorem updateFirst_length (devs : List SmartHomeDevice) (tid : String)
    (d : SmartHomeDevice) : (updateFirst devs tid d).length = devs.length := by
  induction devs with
  | nil => rfl
  | cons x rest ih =>
    unfold updateFirst
    by_cases hx : x.deviceId == tid <;> simp [hx, ih]

theorem updateFirst_map_deviceId (devs : List SmartHomeDevice) (tid : String)
    (d : SmartHomeDevice) (h : d.deviceId = tid) :
    (updateFirst devs tid d).map (fun x => x.deviceId) =
      devs.map (fun x => x.deviceId) := by
  induction devs with
  | nil => rfl
  | cons x rest ih =>
    unfold updateFirst
    by_cases hx : (x.deviceId == tid) = true
    · have : x.deviceId = tid := by simpa using hx
      simp [hx, h, this]
    · simp [hx, ih]

theorem mem_updateFirst_self (devs : List SmartHomeDevice) (tid : String)
    (d : SmartHomeDevice) (h : (devs.any fun x => x.deviceId == tid) = true) :
    d ∈ updateFirst devs tid d := by
  induction devs with
  | nil => simp at h
  | cons x rest ih =>
    unfold updateFirst
    by_cases hx : (x.deviceId == tid) = true
    · simp [hx]
    · have h' : (rest.any fun x => x.deviceId == tid) = true := by
        simpa [List.any_cons, hx] using h
      simp [hx, ih h']

theorem updateFirst_any (devs : List SmartHomeDevice) (tid : String)
    (d : SmartHomeDevice) (h : d.deviceId = tid) (x : String) :
    ((updateFirst devs tid d).any fun y => y.deviceId == x) =
      (devs.any fun y => y.deviceId == x) := by
  induction devs with
  | nil => rfl
  | cons y rest ih =>
    unfold updateFirst
    by_cases hy : (y.deviceId == tid) = true
    · have hyt : y.deviceId = tid := by simpa using hy
      simp [hy, List.any_cons, h, hyt]
    · simp [hy, List.any_cons, ih]

/-! ## The majority-trit computation -/

theorem majorityTriState_eq (cT cF cS : ℕ) :
    majorityTriState cT cF cS =
      if cT < cF then (if cF < cS then TriState.SUPERPOSITION else TriState.FALSE)
      else (if cT < cS then TriState.SUPERPOSITION else TriState.TRUE) := by
  unfold majorityTriState triEntries
  simp only [List.insertionSort, List.orderedInsert, ge_iff_le]
  by_cases h2 : cS ≤ cF
  · rw [if_pos h2]
    simp only [List.orderedInsert, ge_iff_le]
    by_cases h1 : cF ≤ cT
    · rw [if_pos h1, if_neg (show ¬ cT < cF by omega), if_neg (show ¬ cT < cS by omega)]
      rfl
    · rw [if_neg h1, if_pos (show cT < cF by omega), if_neg (show ¬ cF < cS by omega)]
      rfl
  · rw [if_neg h2]
    simp only [List.orderedInsert, ge_iff_le]
    by_cases h3 : cS ≤ cT
    · rw [if_pos h3, if_neg (show ¬ cT < cF by omega), if_neg (show ¬ cT < cS by omega)]
      rfl
    · rw [if_neg h3]
      by_cases h1 : cT < cF
      · rw [if_pos h1, if_pos (show cF < cS by omega)]
        rfl
      · rw [if_neg h1, if_pos (show cT < cS by omega)]
        rfl

/-! ## The action-execution loop -/

theorem execActions_map_deviceId (specs : List DeviceAction)
    (devs : List SmartHomeDevice) (now : ℚ) :
    ((execActions devs specs now).2).map (fun d => d.deviceId) =
      devs.map (fun d => d.deviceId) := by
  induction specs generalizing devs with
  | nil => rfl
  | cons a rest ih =>
    unfold execActions
    cases hf : devs.find? (fun d => d.deviceId == a.deviceId) with
    | some device =>
      have hdev : (sendDeviceCommand device a.command a.parameters now).1.deviceId
          = a.deviceId := by
        simpa using List.find?_some hf
      simp only [hf]
      rw [ih (updateFirst devs a.deviceId (sendDeviceCommand device a.command a.parameters now).1)]
      exact updateFirst_map_deviceId _ _ _ hdev
    | none =>
      simp only [hf]
      exact ih devs

theorem execActions_outcomes (specs : List DeviceAction)
    (devs : List SmartHomeDevice) (now : ℚ) :
    List.Forall₂ (fun (o : ActionOutcome) (a : DeviceAction) =>
      o.deviceId = a.deviceId ∧ o.command = a.command ∧
        ((devs.any fun d => d.deviceId == a.deviceId) = true →
          o.success = true ∧ o.error = none) ∧
        ((devs.any fun d => d.deviceId == a.deviceId) = false →
          o.success = false ∧ o.error = some "Device not found"))
      (execActions devs specs now).1 specs := by
  induction specs generalizing devs with
  | nil => exact List.Forall₂.nil
  | cons a rest ih =>
    unfold execActions
    cases hf : devs.find? (fun d => d.deviceId == a.deviceId) with
    | some device =>
      have hpred := List.find?_some hf
      have hmem := List.mem_of_find?_eq_some hf
      have hany : (devs.any fun d => d.deviceId == a.deviceId) = true :=
        List.any_eq_true.mpr ⟨device, hmem, hpred⟩
      have hdev : (sendDeviceCommand device a.command a.parameters now).1.deviceId
          = a.deviceId := by
        simpa using hpred
      simp only [hf]
      refine List.Forall₂.cons ⟨rfl, rfl, fun _ => ⟨rfl, rfl⟩, fun hfalse => ?_⟩ ?_
      · simp [hfalse] at hany
      · refine (ih (updateFirst devs a.deviceId
          (sendDeviceCommand device a.command a.parameters now).1)).imp ?_
        intro o b hob
        rcases hob with ⟨h1, h2, h3, h4⟩
        refine ⟨h1, h2, ?_, ?_⟩
        · intro hh
          exact h3 (by rw [updateFirst_any _ _ _ hdev]; exact hh)
        · intro hh
          exact h4 (by rw [updateFirst_any _ _ _ hdev]; exact hh)
    | none =>
      have hnone := List.find?_eq_none.mp hf
      have hany : (devs.any fun d => d.deviceId == a.deviceId) = false := by
        rw [List.any_eq_false]
        intro d hd
        exact hnone d hd
      simp only [hf]
      refine List.Forall₂.cons ⟨rfl, rfl, fun htrue => ?_, fun _ => ⟨rfl, rfl⟩⟩ (ih devs)
      simp [htrue] at hany

/-! ## Registry well-formedness -/

theorem not_mem_fst_of_assocAny_eq_false (m : List (String × α)) (k : String)
    (h : assocAny m k = false) : k ∉ m.map Prod.fst := by
  intro hk
  rcases List.mem_map.mp hk with ⟨p, hp, hpk⟩
  have := List.any_eq_false.mp h p hp
  simp [hpk] at this

theorem not_mem_deviceId_of_any_eq_false (l : List SmartHomeDevice) (x : String)
    (h : (l.any fun d => d.deviceId == x) = false) :
    x ∉ l.map (fun d => d.deviceId) := by
  intro hx
  rcases List.mem_map.mp hx with ⟨d, hd, hdx⟩
  have := List.any_eq_false.mp h d hd
  simp [hdx] at this

theorem assocSet_fst_nodup (m : List (String × α)) (k : String) (v : α)
    (h : (m.map Prod.fst).Nodup) : ((assocSet m k v).map Prod.fst).Nodup := by
  by_cases hany : assocAny m k
  · rw [assocSet_fst_of_any m k v hany]
    exact h
  · rw [assocSet_fst_of_not m k v (by simpa using hany)]
    rw [List.nodup_append]
    refine ⟨h, List.nodup_singleton k, ?_⟩
    intro a ha hb
    rw [List.mem_singleton.mp hb] at ha
    exact not_mem_fst_of_assocAny_eq_false m k (by simpa using hany) ha

theorem getDevices_nodup (s : EngineState) (u : String) (h : DevicesWF s) :
    ((getDevices s u).map (fun d => d.deviceId)).Nodup := by
  unfold getDevices mapGet
  cases hg : assocGet s.devices u with
  | none => simp
  | some l =>
    have := h.2 (u, l) (assocGet_mem s.devices u l hg)
    simpa using this

theorem registerDevice_getDevices (s : EngineState) (d : SmartHomeDevice) :
    getDevices (registerDevice s d) d.userId =
      if (getDevices s d.userId).any (fun x => x.deviceId == d.deviceId) then
        updateFirst (getDevices s d.userId) d.deviceId d
      else getDevices s d.userId ++ [d] := by
  unfold registerDevice getDevices mapGet mapSet
  rw [assocGet_set, if_pos rfl]
  rfl

theorem devicesWF_registerDevice (s : EngineState) (d : SmartHomeDevice)
    (h : DevicesWF s) : DevicesWF (registerDevice s d) := by
  have hul : ((getDevices s d.userId).map (fun x => x.deviceId)).Nodup :=
    getDevices_nodup s d.userId h
  constructor
  · exact assocSet_fst_nodup s.devices d.userId _ h.1
  · intro e he
    rcases mem_assocSet s.devices d.userId _ e he with hmem | heq
    · exact h.2 e hmem
    · rw [heq]
      by_cases hany : (((mapGet s.devices d.userId).getD []).any
          fun x => x.deviceId == d.deviceId) = true
      · rw [if_pos hany, updateFirst_map_deviceId _ _ _ rfl]
        exact hul
      · rw [if_neg hany, List.map_append, List.nodup_append]
        refine ⟨hul, List.nodup_singleton _, ?_⟩
        intro a ha hb
        rw [List.mem_singleton.mp hb] at ha
        exact not_mem_deviceId_of_any_eq_false _ _ (by simpa using hany) ha

theorem devicesWF_createPolicy (s : EngineState) (p : EnvironmentalPolicy)
    (h : DevicesWF s) : DevicesWF (createPolicy s p) :=
  h

theorem devicesWF_executePolicy (s : EngineState) (u : String)
    (p : EnvironmentalPolicy) (now : ℚ) (h : DevicesWF s) :
    DevicesWF (executePolicy s u p now).2 := by
  unfold executePolicy
  by_cases hg : (mapGet s.devices u).isSome
  · simp only [hg, if_pos]
    constructor
    · exact assocSet_fst_nodup s.devices u _ h.1
    · intro e he
      rcases mem_assocSet s.devices u _ e he with hmem | heq
      · exact h.2 e hmem
      · rw [heq]
        have hmap := execActions_map_deviceId p.action
          ((mapGet s.devices u).getD []) now
        simpa [hmap] using getDevices_nodup s u h
  · simp only [hg, if_neg, Bool.false_eq_true, not_false_eq_true]
    exact h

theorem devicesWF_orchestrateGo (u : String) (ev : EmotionVector)
    (fs now : ℚ) (ct : String) (ps : List EnvironmentalPolicy) :
    ∀ s : EngineState, DevicesWF s →
      DevicesWF (orchestrateGo u ev fs now ct ps s).2 := by
  induction ps with
  | nil => intro s h; exact h
  | cons p rest ih =>
    intro s h
    unfold orchestrateGo
    by_cases hc : (p.isActive && evaluateCondition p.condition ev fs ct) = true
    · simp only [hc, if_pos]
      exact ih _ (devicesWF_executePolicy s u p now h)
    · simp only [hc, if_neg, Bool.false_eq_true, not_false_eq_true]
      exact ih s h

theorem devicesWF_applyOp (s : EngineState) (op : EngineOp) (h : DevicesWF s) :
    DevicesWF (applyOp s op) := by
  cases op with
  | register d => exact devicesWF_registerDevice s d h
  | create p => exact devicesWF_createPolicy s p h
  | orch u ev fs now ct => exact devicesWF_orchestrateGo u ev fs now ct _ s h

theorem devicesWF_foldl (ops : List EngineOp) :
    ∀ s : EngineState, DevicesWF s → DevicesWF (ops.foldl applyOp s) := by
  induction ops with
  | nil => intro s h; exact h
  | cons op rest ih =>
    intro s h
    exact ih (applyOp s op) (devicesWF_applyOp s op h)

theorem devicesWF_runOps (ops : List EngineOp) : DevicesWF (runOps ops) :=
  devicesWF_foldl ops initState ⟨List.nodup_nil, by intro e he; simp [initState] at he⟩

/-! ## Projections of `decide`, by definitional unfolding -/

theorem decide_triState (obs : ℕ → ℚ) (ctx : DecisionContext) :
    (QuantumDecisionEngine.decide obs ctx).triState =
      majorityTriState (tritCount (drawnTrits obs ctx) TriState.TRUE)
        (tritCount (drawnTrits obs ctx) TriState.FALSE)
        (tritCount (drawnTrits obs ctx) TriState.SUPERPOSITION) :=
  rfl

theorem decide_quatState (obs : ℕ → ℚ) (ctx : DecisionContext) :
    (QuantumDecisionEngine.decide obs ctx).quatState =
      (if checkEntanglement ctx then some QuatState.ENTANGLEMENT else none) :=
  rfl

theorem decide_action_eq (obs : ℕ → ℚ) (ctx : DecisionContext) :
    (QuantumDecisionEngine.decide obs ctx).action =
      (if checkEntanglement ctx &&
          ((QuantumDecisionEngine.decide obs ctx).triState == TriState.TRUE) then
        Action.ORCHESTRATE_SYNC
      else if (QuantumDecisionEngine.decide obs ctx).triState == TriState.TRUE then
        Action.PROCEED_LOCAL
      else if (QuantumDecisionEngine.decide obs ctx).triState == TriState.FALSE then
        Action.SKIP_LOCAL
      else Action.DEFER_UNTIL_COLLAPSE) := by
  simp only [QuantumDecisionEngine.decide]
  split_ifs <;> rfl

theorem decide_confidence (obs : ℕ → ℚ) (ctx : DecisionContext) :
    (QuantumDecisionEngine.decide obs ctx).confidence =
      jsDiv ((max (tritCount (drawnTrits obs ctx) TriState.TRUE)
          (max (tritCount (drawnTrits obs ctx) TriState.FALSE)
            (tritCount (drawnTrits obs ctx) TriState.SUPERPOSITION)) : ℕ) : ℚ)
        (((drawnTrits obs ctx).length : ℕ) : ℚ) :=
  rfl

/-! ## Friction helper -/

theorem emotionFrictionOf_eq (m : FrictionMetrics) :
    emotionFrictionOf m = emotionRushed m * 0.5 + emotionTired m * 0.3 := by
  cases h : m.emotionVector with
  | none => simp [emotionFrictionOf, emotionRushed, emotionTired, h]
  | some ev => simp [emotionFrictionOf, emotionRushed, emotionTired, h]

/-! ## Collapse characterization -/

theorem collapse_false_iff (o : ℚ) : collapseQubit o = TriState.FALSE ↔ o < 0.33 := by
  unfold collapseQubit
  split_ifs with h1 h2 <;> simp [h1]

theorem collapse_true_iff (o : ℚ) :
    collapseQubit o = TriState.TRUE ↔ 0.33 ≤ o ∧ o < 0.66 := by
  unfold collapseQubit
  split_ifs with h1 h2
  · simp [not_le.mpr h1]
  · simp [not_lt.mp h1, h2]
  · simp [h2]

theorem collapse_sup_iff (o : ℚ) :
    collapseQubit o = TriState.SUPERPOSITION ↔ 0.66 ≤ o := by
  unfold collapseQubit
  split_ifs with h1 h2
  · have h66 : o < 0.66 := h1.trans_le (by norm_num)
    simp [not_le.mpr h66]
  · simp [not_le.mpr h2]
  · simp [not_lt.mp h2]

/-! ## The claims -/

/-- C1 (counterexample): the claim says a condition naming an emotion
missing from the input vector (here `"angry"`, threshold 0.5, against an
all-zero input vector) does not match.  The code evaluates
`undefined < 0.5` — which is false — so the pair is skipped and the
condition matches. -/
theorem c1_counterexample_missing_emotion_matches :
    evaluateCondition angryCondition zeroEmotion 0 "12:00" = true := by
  decide

/-- C1 (amended): for every pair whose emotion is present in the input
vector, a matching condition implies the input value is ≥ the threshold;
but a pair naming an emotion missing from the input vector is skipped —
the JS comparison `undefined < threshold` is false, so the pair never
fails the condition (it is not treated as 0). -/
theorem c1_emotion_clause_present_ge_missing_skipped :
    (∀ (cond : PolicyCondition) (pairs : List (String × ℚ)) (ev : EmotionVector)
        (fs : ℚ) (ct : String) (name : String) (t v : ℚ),
      cond.emotionVector = some pairs →
      evaluateCondition cond ev fs ct = true →
      (name, t) ∈ pairs →
      lookupEmotion ev name = some v →
      t ≤ v) ∧
    (∀ (ev : EmotionVector) (name : String) (t : ℚ),
      lookupEmotion ev name = none →
      jsLtOpt (lookupEmotion ev name) t = false) := by
  constructor
  · intro cond pairs ev fs ct name t v hcondEv htrue hmem hlook
    unfold evaluateCondition at htrue
    rw [hcondEv] at htrue
    simp only [Bool.and_eq_true] at htrue
    have hall := htrue.1.1
    have hpair := List.all_eq_true.mp hall (name, t) hmem
    rw [hlook] at hpair
    simp only [jsLtOpt, Bool.not_eq_true'] at hpair
    exact not_lt.mp (of_decide_eq_false hpair)
  · intro ev name t h
    rw [h]
    rfl

/-- C2 (code evidence): `decide` on a context with an empty feature
vector returns a NaN confidence (the `0/0` of the source, modelled as
`none`), not confidence 0 as the spec requires; the majority trit
defaults to TRUE (the first-declared entry of the tally object). -/
theorem c2_empty_features_confidence_nan :
    (QuantumDecisionEngine.decide (fun _ => 0.5) emptyFeaturesCtx).confidence = none ∧
    (QuantumDecisionEngine.decide (fun _ => 0.5) emptyFeaturesCtx).triState =
      TriState.TRUE := by
  constructor <;> rfl

/-- C3 (code evidence): the orchestration log is one global array and
`getHistory` never reads its `userId` argument.  Starting from a fresh
engine with only user-b's policy, user-a's history is empty; after an
orchestrate call for user-b alone, `getHistory` for user-a returns
user-b's orchestration result — two runs differing only in another
user's orchestrations do not yield the same `getHistory` output. -/
theorem c3_history_not_partitioned_by_user :
    getHistory (createPolicy initState userBPolicy) "user-a" 50 = [] ∧
    getHistory (orchestrate (createPolicy initState userBPolicy) "user-b"
        zeroEmotion 0 1 "12:00").2 "user-a" 50 =
      [{ policyId := "pol-b", policyName := "evening", triggeredAt := 1,
         actions := [] }] := by
  constructor <;> decide

/-- C4 (counterexample): with entanglement (two device ids,
`multiDeviceContext` true) and every observation collapsing to FALSE,
the majority trit is FALSE, the action is SKIP_LOCAL — a row whose
`quatState` column the claim says is empty — yet the result carries
`quatState = ENTANGLEMENT`. -/
theorem c4_counterexample_skip_local_entangled :
    (QuantumDecisionEngine.decide (fun _ => 0.1) entangledCtx).triState =
        TriState.FALSE ∧
    (QuantumDecisionEngine.decide (fun _ => 0.1) entangledCtx).action =
        Action.SKIP_LOCAL ∧
    (QuantumDecisionEngine.decide (fun _ => 0.1) entangledCtx).quatState =
        some QuatState.ENTANGLEMENT := by
  have h01 : collapseQubit (0.1 : ℚ) = TriState.FALSE := by
    norm_num [collapseQubit]
  have hdt : drawnTrits (fun _ => (0.1 : ℚ)) entangledCtx =
      [TriState.FALSE, TriState.FALSE, TriState.FALSE] := by
    simp [drawnTrits, entangledCtx, h01, List.range_succ]
  refine ⟨?_, ?_, ?_⟩
  · rw [decide_triState, hdt]
    decide
  · rw [decide_action_eq, decide_triState, hdt]
    decide
  · rw [decide_quatState]
    decide

/-- C4 (amended): `decide` carries `quatState = ENTANGLEMENT` exactly
when entanglement holds, regardless of the majority trit; the action is
ORCHESTRATE_SYNC exactly in the entanglement-and-majority-TRUE row, and
the FALSE and SUPERPOSITION rows route to SKIP_LOCAL and
DEFER_UNTIL_COLLAPSE as the table says. -/
theorem c4_quatState_iff_entanglement :
    ∀ (obs : ℕ → ℚ) (ctx : DecisionContext),
      ((QuantumDecisionEngine.decide obs ctx).quatState =
          some QuatState.ENTANGLEMENT ↔ checkEntanglement ctx = true) ∧
      ((QuantumDecisionEngine.decide obs ctx).action = Action.ORCHESTRATE_SYNC ↔
        (checkEntanglement ctx = true ∧
          (QuantumDecisionEngine.decide obs ctx).triState = TriState.TRUE)) ∧
      ((QuantumDecisionEngine.decide obs ctx).triState = TriState.FALSE →
        (QuantumDecisionEngine.decide obs ctx).action = Action.SKIP_LOCAL) ∧
      ((QuantumDecisionEngine.decide obs ctx).triState = TriState.SUPERPOSITION →
        (QuantumDecisionEngine.decide obs ctx).action = Action.DEFER_UNTIL_COLLAPSE) := by
  intro obs ctx
  rw [decide_action_eq, decide_quatState]
  by_cases hE : checkEntanglement ctx <;>
    cases hm : (QuantumDecisionEngine.decide obs ctx).triState <;>
      simp [hE, hm]

/-- C5: the majority trit `decide` reports is the one with the highest
tally over the drawn trits, with ties decided by the fixed priority
TRUE > FALSE > SUPERPOSITION (the stable descending sort of the tally
entries keeps the first-declared entry first on equal counts): TRUE wins
any tie it takes part in, and FALSE beats SUPERPOSITION on equal
counts. -/
theorem c5_majority_highest_tally_priority :
    (∀ (obs : ℕ → ℚ) (ctx : DecisionContext),
      (QuantumDecisionEngine.decide obs ctx).triState =
        majorityTriState (tritCount (drawnTrits obs ctx) TriState.TRUE)
          (tritCount (drawnTrits obs ctx) TriState.FALSE)
          (tritCount (drawnTrits obs ctx) TriState.SUPERPOSITION)) ∧
    (∀ cT cF cS : ℕ,
      countSel cT cF cS (majorityTriState cT cF cS) = max cT (max cF cS)) ∧
    (∀ cT cF cS : ℕ, cF ≤ cT → cS ≤ cT →
      majorityTriState cT cF cS = TriState.TRUE) ∧
    (∀ cT cF cS : ℕ, cT < cF → cS ≤ cF →
      majorityTriState cT cF cS = TriState.FALSE) ∧
    (∀ cT cF cS : ℕ, cT < cS → cF < cS →
      majorityTriState cT cF cS = TriState.SUPERPOSITION) := by
  refine ⟨fun obs ctx => rfl, ?_, ?_, ?_, ?_⟩
  · intro cT cF cS
    rw [majorityTriState_eq]
    split_ifs <;> simp [countSel] <;> omega
  · intro cT cF cS h1 h2
    rw [majorityTriState_eq, if_neg (by omega), if_neg (by omega)]
  · intro cT cF cS h1 h2
    rw [majorityTriState_eq, if_pos (by omega), if_neg (by omega)]
  · intro cT cF cS h1 h2
    rw [majorityTriState_eq]
    by_cases ha : cT < cF
    · rw [if_pos ha, if_pos h2]
    · rw [if_neg ha, if_pos h1]

/-- C6: the friction score is always in [0,1]; it is jointly (hence for
each input, the others held fixed) non-decreasing in battery entropy,
auth error rate, typing error rate and the rushed and tired intensities,
and non-increasing in free RAM; and the all-zero, 4 GiB-free metrics
with no emotion vector score exactly 0. -/
theorem c6_friction_monotone_bounded :
    (∀ m : FrictionMetrics,
      0 ≤ FrictionScoreCalculator.calculate m ∧
        FrictionScoreCalculator.calculate m ≤ 1) ∧
    (∀ m₁ m₂ : FrictionMetrics,
      m₁.batteryEntropy ≤ m₂.batteryEntropy →
      m₂.freeRam ≤ m₁.freeRam →
      m₁.behavioralAuthErrorRate ≤ m₂.behavioralAuthErrorRate →
      m₁.typingErrorRate ≤ m₂.typingErrorRate →
      emotionRushed m₁ ≤ emotionRushed m₂ →
      emotionTired m₁ ≤ emotionTired m₂ →
      FrictionScoreCalculator.calculate m₁ ≤ FrictionScoreCalculator.calculate m₂) ∧
    FrictionScoreCalculator.calculate perfectMetrics = 0 := by
  refine ⟨fun m => ⟨?_, ?_⟩, fun m₁ m₂ hb hr ha ht hER hET => ?_, ?_⟩
  · unfold FrictionScoreCalculator.calculate
    exact le_min (by norm_num) (le_max_left _ _)
  · unfold FrictionScoreCalculator.calculate
    exact min_le_left _ _
  · unfold FrictionScoreCalculator.calculate
    simp only [emotionFrictionOf_eq]
    have hdiv : m₂.freeRam / (4 * 1024 * 1024 * 1024 : ℚ) ≤
        m₁.freeRam / (4 * 1024 * 1024 * 1024 : ℚ) :=
      (div_le_div_iff_of_pos_right (by norm_num)).mpr hr
    apply min_le_min le_rfl
    apply max_le_max le_rfl
    have hram : (max 0 (1 - m₁.freeRam / (4 * 1024 * 1024 * 1024)) : ℚ) ≤
        max 0 (1 - m₂.freeRam / (4 * 1024 * 1024 * 1024)) :=
      max_le_max le_rfl (by linarith)
    have hemo : emotionRushed m₁ * 0.5 + emotionTired m₁ * 0.3 ≤
        emotionRushed m₂ * 0.5 + emotionTired m₂ * 0.3 := by
      have e1 : emotionRushed m₁ * 0.5 ≤ emotionRushed m₂ * 0.5 :=
        mul_le_mul_of_nonneg_right hER (by norm_num)
      have e2 : emotionTired m₁ * 0.3 ≤ emotionTired m₂ * 0.3 :=
        mul_le_mul_of_nonneg_right hET (by norm_num)
      linarith
    have b1 : m₁.batteryEntropy * 0.2 ≤ m₂.batteryEntropy * 0.2 :=
      mul_le_mul_of_nonneg_right hb (by norm_num)
    have b2 :
        (max 0 (1 - m₁.freeRam / (4 * 1024 * 1024 * 1024)) : ℚ) * 0.2 ≤
          (max 0 (1 - m₂.freeRam / (4 * 1024 * 1024 * 1024)) : ℚ) * 0.2 :=
      mul_le_mul_of_nonneg_right hram (by norm_num)
    have b3 : m₁.behavioralAuthErrorRate * 0.2 ≤ m₂.behavioralAuthErrorRate * 0.2 :=
      mul_le_mul_of_nonneg_right ha (by norm_num)
    have b4 : m₁.typingErrorRate * 0.2 ≤ m₂.typingErrorRate * 0.2 :=
      mul_le_mul_of_nonneg_right ht (by norm_num)
    have b5 : (emotionRushed m₁ * 0.5 + emotionTired m₁ * 0.3) * 0.2 ≤
        (emotionRushed m₂ * 0.5 + emotionTired m₂ * 0.3) * 0.2 :=
      mul_le_mul_of_nonneg_right hemo (by norm_num)
    linarith
  · unfold FrictionScoreCalculator.calculate
    norm_num [perfectMetrics, emotionFrictionOf]

/-- C7: `executePolicy`'s loop is continue-on-error: the outcome list
lines up with the action list one to one (nothing aborts), an
unregistered device id records `success = false` with
"Device not found", a registered one records `success = true`; the step
for a found device replaces exactly that device with the
`sendDeviceCommand` update, whose state bag holds every parameter key's
value (a shallow merge), except the stamped `lastCommand` and
`lastCommandTime` keys. -/
theorem c7_continue_on_error_merge :
    (∀ (devs : List SmartHomeDevice) (specs : List DeviceAction) (now : ℚ),
      List.Forall₂ (fun (o : ActionOutcome) (a : DeviceAction) =>
        o.deviceId = a.deviceId ∧ o.command = a.command ∧
          ((devs.any fun d => d.deviceId == a.deviceId) = true →
            o.success = true ∧ o.error = none) ∧
          ((devs.any fun d => d.deviceId == a.deviceId) = false →
            o.success = false ∧ o.error = some "Device not found"))
        (execActions devs specs now).1 specs) ∧
    (∀ (devs : List SmartHomeDevice) (spec : DeviceAction) (now : ℚ)
        (device : SmartHomeDevice),
      devs.find? (fun d => d.deviceId == spec.deviceId) = some device →
      (execActions devs [spec] now).2 =
        updateFirst devs spec.deviceId
          (sendDeviceCommand device spec.command spec.parameters now).1) ∧
    (∀ (device : SmartHomeDevice) (command : String) (params : Bag) (now : ℚ)
        (k : String) (v : JVal),
      (params.map Prod.fst).Nodup → (k, v) ∈ params →
      k ≠ "lastCommand" → k ≠ "lastCommandTime" →
      bagLookup ((sendDeviceCommand device command params now).1).state k = some v) := by
  refine ⟨fun devs specs now => execActions_outcomes specs devs now, ?_, ?_⟩
  · intro devs spec now device hf
    unfold execActions
    simp only [hf]
    rfl
  · intro device command params now k v hnd hmem hk1 hk2
    show bagLookup (bagInsert (bagInsert (bagMerge device.state params)
      "lastCommand" (JVal.str command)) "lastCommandTime" (JVal.num now)) k = some v
    rw [bagLookup_insert, if_neg hk2, bagLookup_insert, if_neg hk1]
    exact bagLookup_merge_of_mem params device.state k v hnd hmem

/-- C8: the collapse thresholds are exact cut points: FALSE iff the
observation is below 0.33, TRUE iff in [0.33, 0.66), SUPERPOSITION iff
at least 0.66; in particular 0.329 → FALSE, 0.33 → TRUE, 0.659 → TRUE,
0.66 → SUPERPOSITION. -/
theorem c8_collapse_exact_cut_points :
    (∀ o : ℚ,
      (collapseQubit o = TriState.FALSE ↔ o < 0.33) ∧
      (collapseQubit o = TriState.TRUE ↔ 0.33 ≤ o ∧ o < 0.66) ∧
      (collapseQubit o = TriState.SUPERPOSITION ↔ 0.66 ≤ o)) ∧
    collapseQubit 0.329 = TriState.FALSE ∧
    collapseQubit 0.33 = TriState.TRUE ∧
    collapseQubit 0.659 = TriState.TRUE ∧
    collapseQubit 0.66 = TriState.SUPERPOSITION := by
  refine ⟨fun o => ⟨collapse_false_iff o, collapse_true_iff o, collapse_sup_iff o⟩,
    ?_, ?_, ?_, ?_⟩ <;> norm_num [collapseQubit]

/-- C9: after any sequence of registerDevice, createPolicy and
orchestrate calls from a fresh engine, the registry holds at most one
record per (userId, deviceId) — distinct user keys, distinct deviceIds
within a user — and registering an already-registered (userId, deviceId)
replaces the existing record in place, keeping the list length, instead
of adding a second one. -/
theorem c9_registry_unique_per_pair :
    (∀ ops : List EngineOp, DevicesWF (runOps ops)) ∧
    (∀ (s : EngineState) (d : SmartHomeDevice),
      ((getDevices s d.userId).any fun x => x.deviceId == d.deviceId) = true →
        getDevices (registerDevice s d) d.userId =
            updateFirst (getDevices s d.userId) d.deviceId d ∧
          (getDevices (registerDevice s d) d.userId).length =
            (getDevices s d.userId).length ∧
          d ∈ getDevices (registerDevice s d) d.userId) := by
  refine ⟨devicesWF_runOps, ?_⟩
  intro s d hany
  have heq := registerDevice_getDevices s d
  rw [if_pos hany] at heq
  refine ⟨heq, ?_, ?_⟩
  · rw [heq]
    exact updateFirst_length _ _ _
  · rw [heq]
    exact mem_updateFirst_self _ _ _ hany

/-- C10: the internal device-command step unconditionally returns true,
so for every action whose device is registered the recorded outcome has
`success = true` and no error string — the "Device command failed"
branch is unreachable. -/
theorem c10_send_command_always_true :
    (∀ (device : SmartHomeDevice) (command : String) (params : Bag) (now : ℚ),
      (sendDeviceCommand device command params now).2 = true) ∧
    (∀ (devs : List SmartHomeDevice) (specs : List DeviceAction) (now : ℚ),
      List.Forall₂ (fun (o : ActionOutcome) (a : DeviceAction) =>
        (devs.any fun d => d.deviceId == a.deviceId) = true →
          o.success = true ∧ o.error = none)
        (execActions devs specs now).1 specs) := by
  refine ⟨fun _ _ _ _ => rfl, fun devs specs now => ?_⟩
  exact (execActions_outcomes specs devs now).imp (fun o a h ht => h.2.2.1 ht)

end Soulmob
